import Mathlib

set_option maxRecDepth 4096

/-!
Verification development for the drizzle-flags flag codec and predicate
synthesizer (src/index.ts).

The source is TypeScript.  Its bit manipulation uses the JavaScript bitwise
operators `<<`, `|`, `&`, which coerce their operands to 32-bit signed
integers (`ToInt32`) and, for shifts, reduce the shift count modulo 32.
The embedding below models those operators exactly (as `jsShl`, `jsOr`,
`jsAnd` over `ℤ`), models JavaScript string-keyed objects as insertion
ordered association lists (`recordSet`, `recordGet?`, `buildRecord`), and
translates each exported function of the source over that model.
-/

/-- JavaScript `ToUint32`: the low 32 bits of an integer, as a natural. -/
def toUint32 (n : ℤ) : ℕ := (n % 4294967296).toNat

/-- JavaScript `ToInt32`: the low 32 bits of an integer, as a signed value. -/
def toInt32 (n : ℤ) : ℤ :=
  if n % 4294967296 < 2147483648 then n % 4294967296
  else n % 4294967296 - 4294967296

/-- JavaScript `a << b`: shift count is reduced modulo 32, result is Int32. -/
def jsShl (a : ℤ) (b : ℕ) : ℤ := toInt32 ((toUint32 a * 2 ^ (b % 32) : ℕ) : ℤ)

/-- JavaScript `a & b` on numbers: bitwise AND of the Int32 coercions. -/
def jsAnd (a b : ℤ) : ℤ := toInt32 ((Nat.land (toUint32 a) (toUint32 b) : ℕ) : ℤ)

/-- JavaScript `a | b` on numbers: bitwise OR of the Int32 coercions. -/
def jsOr (a b : ℤ) : ℤ := toInt32 ((Nat.lor (toUint32 a) (toUint32 b) : ℕ) : ℤ)

/-- MySQL evaluates its bit operator `&` over 64-bit values. -/
def toUint64 (n : ℤ) : ℕ := (n % 18446744073709551616).toNat

/-- MySQL `a & b` (BIGINT bitwise AND) over the stored column value and a
literal operand. -/
def mysqlBand (a b : ℤ) : ℕ := Nat.land (toUint64 a) (toUint64 b)

/-- A JavaScript object with string keys, modelled as an insertion-ordered
association list; `recordSet` is property assignment `r[k] = v` (update in
place if present, append otherwise). -/
def recordSet {α : Type} : List (String × α) → String → α → List (String × α)
  | [], k, v => [(k, v)]
  | p :: r, k, v => if p.1 = k then (k, v) :: r else p :: recordSet r k v

/-- Property read `r[k]`, `none` when the key is absent (undefined). -/
def recordGet? {α : Type} : List (String × α) → String → Option α
  | [], _ => none
  | p :: r, s => if p.1 = s then some p.2 else recordGet? r s

/-- `Object.fromEntries`: build a record by assigning each entry in order. -/
def buildRecord {α : Type} (entries : List (String × α)) : List (String × α) :=
  entries.foldl (fun r p => recordSet r p.1 p.2) []

/-- Read a boolean record the way the source tests truthiness: an absent key
(undefined) is falsy. -/
def recordFun (r : List (String × Bool)) : String → Bool :=
  fun s => (recordGet? r s).getD false

/-- The `_intSizes` table of the source: MySQL integer type names with their
byte sizes, in declaration order (the order `Object.entries` yields). -/
def _intSizes : List (String × ℕ) :=
  [("tinyint", 1), ("smallint", 2), ("mediumint", 3), ("int", 4), ("bigint", 8)]

/-- `intTypeForFlags`: first entry of `_intSizes` whose bit capacity
`8 * size` covers the flag count; `none` models `throw new Error` for more
than 64 flags. -/
def intTypeForFlags (nFlags : ℕ) : Option String :=
  (_intSizes.find? (fun p => decide (nFlags ≤ 8 * p.2))).map Prod.fst

/-- Byte size of a type name, looked up in `_intSizes`. -/
def typeSize (t : String) : Option ℕ :=
  (_intSizes.find? (fun p => p.1 == t)).map Prod.snd

/-- Stand-in for the default of an in-bounds JavaScript array read. -/
def emptyStr : String := ""

/-- `flagsToInt` (the encoder / `toDriver`): `data |= 1 << i` for every flag
whose value is truthy.  The boolean record supplied by the caller is read as
a function, an absent key being falsy. -/
def flagsToInt (flags : List String) (value : String → Bool) : ℤ :=
  (List.range flags.length).foldl
    (fun data i => if value (flags.getD i emptyStr) then jsOr data (jsShl 1 i) else data)
    0

/-- `fromDriver` (the decoder): assign `data[flags[i]] = !!(value & (1 << i))`
for each index in order, building a record. -/
def fromDriver (flags : List String) (value : ℤ) : List (String × Bool) :=
  (List.range flags.length).foldl
    (fun data i => recordSet data (flags.getD i emptyStr) (jsAnd value (jsShl 1 i) != 0))
    []

/-- A declared flags column: the column object carries the flag list fixed at
declaration time, and its driver-value mapping is `fromDriver`. -/
structure FlagsColumn where
  flags : List String

/-- `column.mapFromDriverValue`, as used by the predicate synthesizer. -/
def mapFromDriverValue (col : FlagsColumn) (v : ℤ) : List (String × Bool) :=
  fromDriver col.flags v

/-- `Object.keys(column.mapFromDriverValue(0))`: the flag order recovered at
query time from a zero decode. -/
def recoveredFlags (col : FlagsColumn) : List String :=
  (mapFromDriverValue col 0).map Prod.fst

/-- The `value` argument of `f`: a single flag name or a list of names. -/
inductive FlagSel where
  | single : String → FlagSel
  | multi : List String → FlagSel

/-- `typeof value === "string" ? [value] : value`. -/
def selList : FlagSel → List String
  | FlagSel.single s => [s]
  | FlagSel.multi l => l

/-- The comparison emitted by `f`: the SQL template
`column & mask = rhs`. -/
structure SqlCmp where
  mask : ℤ
  rhs : ℤ
  deriving DecidableEq

/-- The `int` computed inside `f`: encode the record that maps each recovered
flag to whether it occurs in the selection (`values.includes(f)`). -/
def maskOf (col : FlagsColumn) (value : FlagSel) : ℤ :=
  flagsToInt (recoveredFlags col)
    (recordFun (buildRecord
      ((recoveredFlags col).map (fun fl => (fl, decide (fl ∈ selList value))))))

/-- `f`: emit `column & int = int` when `target` is true, otherwise
`column & int = 0`. -/
def f (col : FlagsColumn) (value : FlagSel) (target : Bool) : SqlCmp :=
  if target then ⟨maskOf col value, maskOf col value⟩ else ⟨maskOf col value, 0⟩

/-- `f1`: filter for the selected flags being set. -/
def f1 (col : FlagsColumn) (value : FlagSel) : SqlCmp := f col value true

/-- `f0`: filter for the selected flags being clear. -/
def f0 (col : FlagsColumn) (value : FlagSel) : SqlCmp := f col value false

/-- `flagsExtras`: one named expression `column & (1 << flags.indexOf(f))`
per recovered flag, collected with `Object.fromEntries`.  Each entry keeps
the embedded literal mask; its result is post-mapped through `!!val`. -/
def flagsExtras (col : FlagsColumn) : List (String × ℤ) :=
  buildRecord
    ((recoveredFlags col).map
      (fun fl => (fl, jsShl 1 ((recoveredFlags col).indexOf fl))))

/-- Evaluation of one extras expression at a stored value: the driver value
of `column & mask`, coerced with `!!`. -/
def evalExtra (r mask : ℤ) : Bool := mysqlBand r mask != 0

/-- A 33-name flag set, the smallest size at which the JavaScript shift
wrap-around aliases two flags onto one bit. -/
def flags33 : List String :=
  ["g0", "g1", "g2", "g3", "g4", "g5", "g6", "g7",
   "g8", "g9", "g10", "g11", "g12", "g13", "g14", "g15",
   "g16", "g17", "g18", "g19", "g20", "g21", "g22", "g23",
   "g24", "g25", "g26", "g27", "g28", "g29", "g30", "g31", "g32"]

/-- A 32-name flag set, the smallest size at which bit 31 makes the encoded
value negative. -/
def flags32 : List String :=
  ["g0", "g1", "g2", "g3", "g4", "g5", "g6", "g7",
   "g8", "g9", "g10", "g11", "g12", "g13", "g14", "g15",
   "g16", "g17", "g18", "g19", "g20", "g21", "g22", "g23",
   "g24", "g25", "g26", "g27", "g28", "g29", "g30", "g31"]

/-- The flag value over `flags33` that sets only the last flag. -/
def v33 : String → Bool := fun s => s == "g32"

/-- The flag value over `flags32` that sets only the last flag. -/
def v31 : String → Bool := fun s => s == "g31"

/-- A 32-flag column. -/
def col32 : FlagsColumn := ⟨flags32⟩

/-- The three-flag column of the extras scenario. -/
def col3 : FlagsColumn := ⟨["a", "b", "c"]⟩

/-- A two-flag column used for the unknown-name scenario. -/
def colXY : FlagsColumn := ⟨["x", "y"]⟩

/-! ## Helper lemmas about the JavaScript integer semantics -/

/-- Coercing an Int32 result back to Uint32 recovers the low 32 bits. -/
lemma toUint32_toInt32 (x : ℤ) : toUint32 (toInt32 x) = toUint32 x := by
  unfold toInt32 toUint32
  split <;> omega

/-- The bit pattern of the JavaScript shift `1 << i` is the power of two at
the shift count reduced modulo 32. -/
lemma toUint32_jsShl_one (i : ℕ) : toUint32 (jsShl 1 i) = 2 ^ (i % 32) := by
  unfold jsShl
  rw [toUint32_toInt32]
  have h2 : 2 ^ (i % 32) < 4294967296 := by
    have hlt : i % 32 < 32 := Nat.mod_lt _ (by norm_num)
    calc 2 ^ (i % 32) ≤ 2 ^ 31 := Nat.pow_le_pow_right (by norm_num) (by omega)
      _ < 4294967296 := by norm_num
  have h1 : toUint32 1 = 1 := by unfold toUint32; omega
  rw [h1]
  unfold toUint32
  omega

/-- The truthiness of `value & (1 << i)` tests bit `i % 32` of the low 32
bits of `value`. -/
lemma jsBit_eq (v : ℤ) (i : ℕ) :
    (jsAnd v (jsShl 1 i) != 0) = Nat.testBit (toUint32 v) (i % 32) := by
  unfold jsAnd
  rw [toUint32_jsShl_one]
  have hand : Nat.land (toUint32 v) (2 ^ (i % 32)) =
      ((toUint32 v).testBit (i % 32)).toNat * 2 ^ (i % 32) := Nat.and_two_pow _ _
  rw [hand]
  have hlt : i % 32 < 32 := Nat.mod_lt _ (by norm_num)
  have hpow : 0 < 2 ^ (i % 32) ∧ 2 ^ (i % 32) < 4294967296 := by
    constructor
    · exact Nat.pos_pow_of_pos _ (by norm_num)
    · calc 2 ^ (i % 32) ≤ 2 ^ 31 := Nat.pow_le_pow_right (by norm_num) (by omega)
        _ < 4294967296 := by norm_num
  cases hb : (toUint32 v).testBit (i % 32) with
  | false =>
    simp only [Bool.toNat_false, Nat.zero_mul, Nat.cast_zero]
    unfold toInt32
    norm_num
  | true =>
    simp only [Bool.toNat_true, Nat.one_mul]
    unfold toInt32
    generalize hk : (2 : ℕ) ^ (i % 32) = k at hpow ⊢
    split <;> simp <;> omega

/-- Uint32 coercion of a natural number cast into the integers. -/
lemma toUint32_natCast (r : ℕ) : toUint32 (r : ℤ) = r % 4294967296 := by
  unfold toUint32; omega

/-- Reducing a cast natural modulo a power of two, inside the integers. -/
lemma natCast_emod_pow (r n : ℕ) :
    (r : ℤ) % (2 : ℤ) ^ n = ((r % 2 ^ n : ℕ) : ℤ) := by
  push_cast
  rfl

/-- The MySQL expression `r & 2 ^ i` is truthy exactly on the values whose
bit `i` is set, for any bit position inside a 64-bit word. -/
lemma evalExtra_pow (r i : ℕ) (hi : i < 64) :
    evalExtra (r : ℤ) ((2 ^ i : ℕ) : ℤ) = r.testBit i := by
  unfold evalExtra mysqlBand toUint64
  have hp : 2 ^ i < 18446744073709551616 := by
    calc 2 ^ i ≤ 2 ^ 63 := Nat.pow_le_pow_right (by norm_num) (by omega)
      _ < 18446744073709551616 := by norm_num
  have h1 : (((r : ℤ) % 18446744073709551616).toNat) = r % 18446744073709551616 := by
    omega
  have h2 : ((((2 ^ i : ℕ) : ℤ) % 18446744073709551616).toNat) = 2 ^ i := by
    generalize hk : (2 : ℕ) ^ i = k at hp ⊢
    omega
  rw [h1, h2]
  have hand : Nat.land (r % 18446744073709551616) (2 ^ i) =
      ((r % 18446744073709551616).testBit i).toNat * 2 ^ i := Nat.and_two_pow _ _
  rw [hand]
  rw [show (18446744073709551616 : ℕ) = 2 ^ 64 from rfl, Nat.testBit_mod_two_pow]
  simp only [hi, decide_eq_true_eq, decide_True, Bool.true_and]
  cases hb : r.testBit i <;> simp

/-! ## The claims -/

/-- Claim C1: the spec asserts that decoding the encoding of a total flag
value returns it exactly for flag sets of size 1..64.  The code violates
this: with 33 flags, the JavaScript shift `1 << 32` wraps to `1`, so a
value that sets only the 33rd flag encodes to 1, and decoding then reports
the first flag as true although it was false. -/
theorem c1_decode_encode_wraps :
    (fromDriver flags33 (flagsToInt flags33 v33)).head? = some ("g0", true) ∧
    (flags33.map (fun s => (s, v33 s))).head? = some ("g0", false) := by
  decide

/-- Claim C2: width derivation maps flag counts 1, 8, 9, 16, 17, 24, 25,
32, 33, 64 to byte widths 1, 1, 2, 2, 3, 3, 4, 4, 8, 8 respectively, and
fails for every count above 64. -/
theorem c2_width_selection :
    (∀ n : ℕ, 64 < n → intTypeForFlags n = none) ∧
    ((intTypeForFlags 1).bind typeSize = some 1 ∧
     (intTypeForFlags 8).bind typeSize = some 1 ∧
     (intTypeForFlags 9).bind typeSize = some 2 ∧
     (intTypeForFlags 16).bind typeSize = some 2 ∧
     (intTypeForFlags 17).bind typeSize = some 3 ∧
     (intTypeForFlags 24).bind typeSize = some 3 ∧
     (intTypeForFlags 25).bind typeSize = some 4 ∧
     (intTypeForFlags 32).bind typeSize = some 4 ∧
     (intTypeForFlags 33).bind typeSize = some 8 ∧
     (intTypeForFlags 64).bind typeSize = some 8) := by
  constructor
  · intro n hn
    unfold intTypeForFlags
    rw [Option.map_eq_none', List.find?_eq_none]
    intro x hx
    simp only [_intSizes, List.mem_cons, List.not_mem_nil, or_false] at hx
    rcases hx with h | h | h | h | h <;> subst h <;> simp <;> omega
  · decide

/-- Witness for Claim C2: the overflow branch applied at flag count 65. -/
theorem c2_width_selection_witness : intTypeForFlags 65 = none :=
  c2_width_selection.1 65 (by norm_num)

/-- Claim C3: the spec asserts the emitted predicate compares against the
mask that ORs `2 ^ i` over the selected positions.  The code violates this
for a 32-flag column: selecting the flag at position 31 embeds the literal
-2147483648 (the JavaScript Int32 value of `1 << 31`), not the claimed mask
`2 ^ 31 = 2147483648`. -/
theorem c3_predicate_mask_wraps :
    f col32 (FlagSel.multi ["g31"]) true = ⟨-2147483648, -2147483648⟩ ∧
    ((2 : ℤ) ^ 31) = 2147483648 :=
  ⟨by decide, by norm_num⟩

/-- Claim C4: the spec asserts that encoding the decoding of any stored
integer in range returns it for flag sets of size up to 64.  The code
violates this at 32 flags: the stored value `2 ^ 31` decodes to a record
with only the last flag set, which re-encodes to -2147483648. -/
theorem c4_encode_decode_wraps :
    flagsToInt flags32 (recordFun (fromDriver flags32 2147483648)) = -2147483648 := by
  decide

/-- Claim C5: the spec asserts the encoder always returns a value in
[0, 2 ^ count).  The code violates this at 32 flags: encoding the all-true
value yields -1, because the accumulation happens in signed Int32. -/
theorem c5_encode_negative :
    flagsToInt flags32 (fun _ => true) = -1 := by
  decide

/-- Counterexample to Claim C6: with recovered flags x, y, selecting the
unknown name z raises nothing and yields the trivial comparison with mask
0; adding z to a selection leaves the emitted comparison unchanged, so the
unknown name is silently dropped rather than reported. -/
theorem c6_unknown_flag_counterexample :
    f colXY (FlagSel.multi ["z"]) true = ⟨0, 0⟩ ∧
    f colXY (FlagSel.multi ["x", "z"]) true = f colXY (FlagSel.multi ["x"]) true := by
  decide

/-- Claim C6 as amended: a selected name absent from the recovered flag set
is silently ignored: the emitted comparison equals the one for the
selection restricted to known names, and no error is raised (the function
is total).  The source rules unknown names out at the type level only. -/
theorem c6_unknown_flag_dropped (col : FlagsColumn) (sel : List String) (target : Bool) :
    f col (FlagSel.multi sel) target =
      f col (FlagSel.multi (sel.filter (fun s => decide (s ∈ recoveredFlags col)))) target := by
  have hmask : maskOf col (FlagSel.multi sel) =
      maskOf col (FlagSel.multi (sel.filter (fun s => decide (s ∈ recoveredFlags col)))) := by
    unfold maskOf
    have hmap : (recoveredFlags col).map
        (fun fl => (fl, decide (fl ∈ selList (FlagSel.multi sel)))) =
        (recoveredFlags col).map
        (fun fl => (fl, decide (fl ∈ selList (FlagSel.multi
          (sel.filter (fun s => decide (s ∈ recoveredFlags col))))))) := by
      apply List.map_congr_left
      intro fl hfl
      simp [selList, List.mem_filter, hfl]
    rw [hmap]
  unfold f
  rw [hmask]

/-- Claim C7: for a column with recovered flags a, b, c, the extras are
exactly three named expressions with masks 1, 2, 4; each is truthy exactly
when the corresponding bit of the stored value is set; and against the
stored integer 5 they evaluate to true, false, true. -/
theorem c7_flags_extras :
    flagsExtras col3 = [("a", 1), ("b", 2), ("c", 4)] ∧
    (∀ r : ℕ,
      evalExtra (r : ℤ) 1 = r.testBit 0 ∧
      evalExtra (r : ℤ) 2 = r.testBit 1 ∧
      evalExtra (r : ℤ) 4 = r.testBit 2) ∧
    (evalExtra 5 1 = true ∧ evalExtra 5 2 = false ∧ evalExtra 5 4 = true) := by
  refine ⟨by decide, ?_, by decide⟩
  intro r
  refine ⟨?_, ?_, ?_⟩
  · have h := evalExtra_pow r 0 (by norm_num)
    have hc : ((2 ^ 0 : ℕ) : ℤ) = 1 := by norm_num
    rw [hc] at h
    exact h
  · have h := evalExtra_pow r 1 (by norm_num)
    have hc : ((2 ^ 1 : ℕ) : ℤ) = 2 := by norm_num
    rw [hc] at h
    exact h
  · have h := evalExtra_pow r 2 (by norm_num)
    have hc : ((2 ^ 2 : ℕ) : ℤ) = 4 := by norm_num
    rw [hc] at h
    exact h

/-- Claim C8: the decoder is total (it never raises), and for every flag
set and every non-negative integer it agrees with the decoding of that
integer reduced modulo `2 ^ count`: stray high bits are ignored. -/
theorem c8_decode_tolerant (flags : List String) (r : ℕ) :
    fromDriver flags (r : ℤ) = fromDriver flags ((r : ℤ) % (2 : ℤ) ^ flags.length) := by
  unfold fromDriver
  apply List.foldl_ext
  intro data i hi
  rw [List.mem_range] at hi
  rw [jsBit_eq, jsBit_eq]
  rw [natCast_emod_pow, toUint32_natCast, toUint32_natCast]
  have hj : i % 32 < flags.length := lt_of_le_of_lt (Nat.mod_le i 32) hi
  rw [show (4294967296 : ℕ) = 2 ^ 32 from rfl]
  congr 1
  rw [Nat.testBit_mod_two_pow, Nat.testBit_mod_two_pow, Nat.testBit_mod_two_pow]
  have hj32 : i % 32 < 32 := Nat.mod_lt _ (by norm_num)
  simp [hj, hj32]

/-- Claim C9: the spec asserts that toggling one flag changes the encoding
by exactly plus or minus `2 ^ i`.  The code violates this at bit 31:
starting from the all-false value (encoding 0), setting only the flag at
position 31 yields -2147483648, a change of minus `2 ^ 31` where the claim
requires plus `2 ^ 31`. -/
theorem c9_toggle_bit31 :
    flagsToInt flags32 v31 = -2147483648 ∧ flagsToInt flags32 (fun _ => false) = 0 := by
  decide

/-- Claim C10: passing a bare flag name to the filter builders produces
exactly the same comparison as passing the singleton list of that name,
for both the true-target and the false-target builder. -/
theorem c10_single_eq_singleton (col : FlagsColumn) (v : String) :
    f1 col (FlagSel.single v) = f1 col (FlagSel.multi [v]) ∧
    f0 col (FlagSel.single v) = f0 col (FlagSel.multi [v]) :=
  ⟨rfl, rfl⟩
